import Mathlib

/-!
Verification of the map_events service (src/app.py Flask handlers, src/insert.py
bulk loader) against its specification.

The app stores, per event, a hash at key event:{id} with fields id, name,
(optionally city,) lat, lon, created_at — the Event Store — and a member {id}
scored by its (lon, lat) position in the sorted set events_geo — the Geo Index.
Both stores live in an external Redis server; the repository code only issues
Redis commands (HSET, HGETALL, GEOADD, GEORADIUS, ZCARD, DEL, KEYS).  The Redis
commands themselves are therefore modelled from the spec (doc comments say so),
while the handler logic around them is translated directly from src/app.py and
src/insert.py.

Coordinates and distances are modelled over an abstract linear ordered field K
(instantiated at ℚ for executable witnesses and at ℝ where the spec's haversine
distance with Earth radius 6371.0 km is itself the subject of the claim).  The
great-circle distance computed inside GEORADIUS is passed in as a function
parameter d, instantiated with haversineKm where a claim pins the formula.
-/

namespace MapEvents

/-- One Event Store record: the hash written at key event:{id}.
src/app.py create_event writes fields id, name, lat, lon, created_at;
src/insert.py additionally writes city (hence the Option). -/
structure EventRecord (K : Type) where
  id : String
  name : String
  city : Option String
  lat : K
  lon : K
  created_at : Nat
deriving DecidableEq

/-- The full Redis state the handlers touch: the Geo Index sorted set
events_geo as an association list id to (lon, lat), and the Event Store as an
association list id to record (the key prefix event: is dropped, it is a pure
naming convention). -/
structure RState (K : Type) where
  geo : List (String × K × K)
  store : List (String × EventRecord K)
deriving DecidableEq

/-- Modelled from the spec: Event Store put with overwrite semantics
(Redis HSET on event:{id}); an existing key is overwritten in place,
a fresh key is appended. -/
def hset {K : Type} (st : List (String × EventRecord K)) (k : String)
    (v : EventRecord K) : List (String × EventRecord K) :=
  if st.any (fun p => p.1 = k) then
    st.map (fun p => if p.1 = k then (k, v) else p)
  else st ++ [(k, v)]

/-- Modelled from the spec: Event Store get (Redis HGETALL on event:{id});
a missing key yields none (HGETALL returns an empty hash). -/
def storeGet {K : Type} (st : List (String × EventRecord K)) (k : String) :
    Option (EventRecord K) :=
  (st.find? (fun p => decide (p.1 = k))).map Prod.snd

/-- The error a geo insert raises on an out-of-range coordinate (spec §7). -/
inductive GeoErr where
  | invalidCoordinate
deriving DecidableEq

/-- Modelled from the spec: Geo Index insert (Redis GEOADD on events_geo).
Fails with InvalidCoordinate when the longitude is outside [-180, 180] or the
latitude outside [-90, 90]; a repeated insert with the same identifier updates
the location instead of duplicating it (spec §3, §4.1). -/
def geoadd {K : Type} [LinearOrderedField K] (g : List (String × K × K))
    (lon lat : K) (id : String) : Except GeoErr (List (String × K × K)) :=
  if -180 ≤ lon ∧ lon ≤ 180 ∧ -90 ≤ lat ∧ lat ≤ 90 then
    .ok (if g.any (fun p => p.1 = id) then
          g.map (fun p => if p.1 = id then (id, lon, lat) else p)
        else g ++ [(id, lon, lat)])
  else .error .invalidCoordinate

/-- The sort key used by the modelled radius query: ascending distance,
ties broken by identifier (spec §4.1: sorted ascending by distance; ties
broken by identifier). -/
def leKey {K : Type} [LinearOrder K] (a b : String × K) : Prop :=
  a.2 < b.2 ∨ (a.2 = b.2 ∧ a.1 ≤ b.1)

instance {K : Type} [LinearOrder K] : DecidableRel (leKey (K := K)) :=
  fun a b => inferInstanceAs (Decidable (_ ∨ _))

instance {K : Type} [LinearOrder K] : IsTotal (String × K) leKey where
  total a b := by
    rcases lt_trichotomy a.2 b.2 with h | h | h
    · exact Or.inl (Or.inl h)
    · rcases le_total a.1 b.1 with h2 | h2
      · exact Or.inl (Or.inr ⟨h, h2⟩)
      · exact Or.inr (Or.inr ⟨h.symm, h2⟩)
    · exact Or.inr (Or.inl h)

instance {K : Type} [LinearOrder K] : IsTrans (String × K) leKey where
  trans a b c hab hbc := by
    rcases hab with h1 | ⟨h1, h1'⟩
    · rcases hbc with h2 | ⟨h2, _⟩
      · exact Or.inl (h1.trans h2)
      · exact Or.inl (h2 ▸ h1)
    · rcases hbc with h2 | ⟨h2, h2'⟩
      · exact Or.inl (h1 ▸ h2)
      · exact Or.inr ⟨h1.trans h2, h1'.trans h2'⟩

/-- Modelled from the spec: Redis GEORADIUS events_geo lon lat r km WITHDIST
ASC, as issued by src/app.py line 38.  Annotates every member with its
great-circle distance (computed by the engine as d, full precision), keeps
exactly those whose distance is at most the radius (spec §4.1: discards
candidates whose exact distance exceeds radiusKm), and returns them sorted
ascending by distance with ties broken by identifier. -/
def georadius {K : Type} [LinearOrderedField K] (d : K → K → K → K → K)
    (g : List (String × K × K)) (lon lat r : K) : List (String × K) :=
  List.insertionSort leKey
    ((g.map (fun p => (p.1, d lat lon p.2.2 p.2.1))).filter
      (fun q => decide (q.2 ≤ r)))

/-- Modelled from the spec: Redis ZCARD events_geo (src/app.py line 117),
the number of members of the Geo Index. -/
def zcard {K : Type} (g : List (String × K × K)) : Nat :=
  g.length

/-- Python round(x, 2) on the distance value: round half to even at the second
decimal place, as performed at src/app.py line 63. -/
def rnd {K : Type} [LinearOrderedField K] [FloorRing K] (y : K) : ℤ :=
  if y - ⌊y⌋ < 1/2 then ⌊y⌋
  else if 1/2 < y - ⌊y⌋ then ⌊y⌋ + 1
  else if Even ⌊y⌋ then ⌊y⌋ else ⌊y⌋ + 1

/-- round(x, 2): x rounded (half to even) to two decimal places. -/
def round2 {K : Type} [LinearOrderedField K] [FloorRing K] (x : K) : K :=
  (rnd (100 * x) : K) / 100

/-- One entry of the JSON events array returned by the search handler:
the stored hash plus the rounded distance added at src/app.py line 63. -/
structure SearchResult (K : Type) where
  details : EventRecord K
  distance : K
deriving DecidableEq

/-- The JSON body returned by the search handler (src/app.py lines 68-72);
the wall-clock time_ms field is not modelled. -/
structure SearchResponse (K : Type) where
  events : List (SearchResult K)
  count : Nat
deriving DecidableEq

/-- src/app.py search_events (lines 22-72): queries GEORADIUS with the tracker
longitude first (line 40), pipelines HGETALL event:{id} for every hit, keeps a
hit only when its hash is non-empty (line 62: if details), attaches the
distance rounded to two decimals, and reports count as the length of the
surviving list. -/
def search_events {K : Type} [LinearOrderedField K] [FloorRing K]
    (d : K → K → K → K → K) (s : RState K) (lat lon radius : K) :
    SearchResponse K :=
  let nearby := georadius d s.geo lon lat radius
  let evs := nearby.filterMap
    (fun p => (storeGet s.store p.1).map
      (fun ev => SearchResult.mk ev (round2 p.2)))
  ⟨evs, evs.length⟩

/-- src/app.py create_event (lines 74-106): the generated identifier
(str(uuid.uuid4())[:8], externalized here as the parameter genId, consulted
exactly once) names a hash written with HSET first (line 90); GEOADD runs
second (line 95).  There is no try/except around GEOADD: when it fails the
error propagates and the already-written hash stays in the Event Store. -/
def create_event {K : Type} [LinearOrderedField K] (s : RState K)
    (genId name : String) (lat lon : K) (now : Nat) :
    RState K × Except GeoErr String :=
  let ev : EventRecord K := ⟨genId, name, none, lat, lon, now⟩
  let st1 := hset s.store genId ev
  match geoadd s.geo lon lat genId with
  | .ok g => (⟨g, st1⟩, .ok genId)
  | .error e => (⟨s.geo, st1⟩, .error e)

/-- src/app.py get_event_count (lines 108-120): ZCARD events_geo. -/
def get_event_count {K : Type} (s : RState K) : Nat :=
  zcard s.geo

/-- src/app.py clear_events (lines 122-135): deletes the Geo Index and every
event:{id} hash, and reports the number of deleted hash keys. -/
def clear_events {K : Type} (s : RState K) : RState K × Nat :=
  (⟨[], []⟩, s.store.length)

/-- One synthetic entry of the bulk loader, with the randomly generated
identifier, name, city and coordinates externalized as data. -/
structure GenEntry (K : Type) where
  id : String
  name : String
  city : String
  lat : K
  lon : K
deriving DecidableEq

/-- src/insert.py insert_events (lines 186-251): for each generated entry,
HSET of the hash (with city) then GEOADD, all through a pipeline (pure
sequencing, so batching does not change the end state); the returned counter
inserted increments once per loop iteration.  The identifier
str(uuid.uuid4())[:8] (line 211) is consulted exactly once per entry and never
checked against existing keys. -/
def insert_events {K : Type} [LinearOrderedField K] :
    RState K → List (GenEntry K) → Nat → Except GeoErr (RState K × Nat)
  | s, [], _ => .ok (s, 0)
  | s, e :: es, now =>
    let ev : EventRecord K := ⟨e.id, e.name, some e.city, e.lat, e.lon, now⟩
    let st1 := hset s.store e.id ev
    match geoadd s.geo e.lon e.lat e.id with
    | .error err => .error err
    | .ok g =>
      match insert_events ⟨g, st1⟩ es now with
      | .error err => .error err
      | .ok (s2, n) => .ok (s2, n + 1)

/-! ### Helper lemmas shared by several claims -/

theorem storeGet_eq_some_mem {K : Type} {st : List (String × EventRecord K)}
    {k : String} {ev : EventRecord K} (h : storeGet st k = some ev) :
    (k, ev) ∈ st := by
  unfold storeGet at h
  rcases Option.map_eq_some'.mp h with ⟨p, hp, hev⟩
  have hk : p.1 = k := by simpa using List.find?_some hp
  have hm := List.mem_of_find?_eq_some hp
  have : p = (k, ev) := by
    cases p
    simp only [Prod.mk.injEq]
    exact ⟨hk, hev⟩
  exact this ▸ hm

theorem storeGet_hset_self {K : Type} (st : List (String × EventRecord K))
    (k : String) (v : EventRecord K) : storeGet (hset st k v) k = some v := by
  unfold hset storeGet
  by_cases h : st.any (fun p => p.1 = k)
  · rw [if_pos h]
    rcases List.any_eq_true.mp h with ⟨p0, hp0, hk0⟩
    induction st with
    | nil => simp at hp0
    | cons a tl ih =>
      by_cases ha : a.1 = k
      · simp [ha]
      · rcases List.mem_cons.mp hp0 with h1 | h1
        · exact absurd (h1 ▸ hk0) (by simpa using ha)
        · simpa [ha] using ih (List.any_eq_true.mpr ⟨p0, h1, hk0⟩) h1
  · rw [if_neg h]
    have hnone : st.find? (fun p => decide (p.1 = k)) = none := by
      rw [List.find?_eq_none]
      intro x hx hdx
      exact h (List.any_eq_true.mpr ⟨x, hx, hdx⟩)
    rw [List.find?_append, hnone]
    simp

theorem mem_hset_keys {K : Type} (st : List (String × EventRecord K))
    (k : String) (v : EventRecord K) : k ∈ (hset st k v).map Prod.fst := by
  unfold hset
  by_cases h : st.any (fun p => p.1 = k)
  · rw [if_pos h]
    rcases List.any_eq_true.mp h with ⟨p0, hp0, hk0⟩
    refine List.mem_map.mpr ⟨(k, v), List.mem_map.mpr ⟨p0, hp0, ?_⟩, rfl⟩
    rw [if_pos (of_decide_eq_true hk0)]
  · rw [if_neg h]
    simp

theorem geoadd_invalid {K : Type} [LinearOrderedField K]
    {lon lat : K} (g : List (String × K × K)) (id : String)
    (h : ¬(-180 ≤ lon ∧ lon ≤ 180 ∧ -90 ≤ lat ∧ lat ≤ 90)) :
    geoadd g lon lat id = .error .invalidCoordinate := by
  unfold geoadd
  rw [if_neg h]

theorem geoadd_fresh {K : Type} [LinearOrderedField K]
    {lon lat : K} {g : List (String × K × K)} {id : String}
    (hv : -180 ≤ lon ∧ lon ≤ 180 ∧ -90 ≤ lat ∧ lat ≤ 90)
    (hid : id ∉ g.map Prod.fst) :
    geoadd g lon lat id = .ok (g ++ [(id, lon, lat)]) := by
  unfold geoadd
  rw [if_pos hv, if_neg]
  intro hany
  rcases List.any_eq_true.mp hany with ⟨p0, hp0, hk0⟩
  exact hid (List.mem_map.mpr ⟨p0, hp0, of_decide_eq_true hk0⟩)

theorem mem_georadius {K : Type} [LinearOrderedField K]
    (d : K → K → K → K → K) (g : List (String × K × K)) (lon lat r : K)
    (q : String × K) :
    q ∈ georadius d g lon lat r ↔
      (∃ p ∈ g, q = (p.1, d lat lon p.2.2 p.2.1)) ∧ q.2 ≤ r := by
  unfold georadius
  rw [List.mem_insertionSort, List.mem_filter, List.mem_map]
  constructor
  · rintro ⟨⟨p, hp, hq⟩, hr⟩
    exact ⟨⟨p, hp, hq.symm⟩, of_decide_eq_true hr⟩
  · rintro ⟨⟨p, hp, hq⟩, hr⟩
    exact ⟨⟨p, hp, hq.symm⟩, decide_eq_true hr⟩

theorem geo_nodup_unique {K : Type} {g : List (String × K × K)}
    (hnd : (g.map Prod.fst).Nodup) {id : String} {c c' : K × K}
    (h1 : (id, c) ∈ g) (h2 : (id, c') ∈ g) : c = c' := by
  induction g with
  | nil => simp at h1
  | cons a tl ih =>
    rw [List.map_cons, List.nodup_cons] at hnd
    rcases List.mem_cons.mp h1 with e1 | e1 <;>
      rcases List.mem_cons.mp h2 with e2 | e2
    · rw [← e1] at e2
      exact (Prod.mk.injEq _ _ _ _ ▸ e2).2.symm
    · exact absurd (List.mem_map.mpr ⟨(id, c'), e2, by rw [← e1]⟩) hnd.1
    · exact absurd (List.mem_map.mpr ⟨(id, c), e1, by rw [← e2]⟩) hnd.1
    · exact ih hnd.2 e1 e2

theorem mem_search_ids {K : Type} [LinearOrderedField K] [FloorRing K]
    (d : K → K → K → K → K) (s : RState K) (lat lon r : K) (i : String) :
    i ∈ (search_events d s lat lon r).events.map (fun e => e.details.id) ↔
      ∃ q ∈ georadius d s.geo lon lat r,
        ∃ ev, storeGet s.store q.1 = some ev ∧ ev.id = i := by
  unfold search_events
  simp only [List.mem_map, List.mem_filterMap, Option.map_eq_some']
  constructor
  · rintro ⟨e, ⟨q, hq, ev, hev, hmk⟩, hid⟩
    exact ⟨q, hq, ev, hev, by rw [← hid, ← hmk]⟩
  · rintro ⟨q, hq, ev, hev, hid⟩
    exact ⟨⟨ev, round2 q.2⟩, ⟨q, hq, ev, hev, rfl⟩, hid⟩

theorem le_rnd {K : Type} [LinearOrderedField K] [FloorRing K] (y : K) :
    ⌊y⌋ ≤ rnd y := by
  unfold rnd
  split_ifs <;> omega

theorem rnd_le {K : Type} [LinearOrderedField K] [FloorRing K] (y : K) :
    rnd y ≤ ⌊y⌋ + 1 := by
  unfold rnd
  split_ifs <;> omega

theorem rnd_mono {K : Type} [LinearOrderedField K] [FloorRing K]
    {x y : K} (h : x ≤ y) : rnd x ≤ rnd y := by
  rcases lt_or_eq_of_le (Int.floor_mono h) with hf | hf
  · calc rnd x ≤ ⌊x⌋ + 1 := rnd_le x
      _ ≤ ⌊y⌋ := by omega
      _ ≤ rnd y := le_rnd y
  · have hxy : x - (⌊y⌋ : K) ≤ y - (⌊y⌋ : K) := by linarith
    unfold rnd
    rw [hf]
    split_ifs <;> first | omega | (exfalso; linarith)

theorem round2_mono {K : Type} [LinearOrderedField K] [FloorRing K]
    {x y : K} (h : x ≤ y) : round2 x ≤ round2 y := by
  unfold round2
  have h2 : rnd (100 * x) ≤ rnd (100 * y) :=
    rnd_mono (by linarith : (100 : K) * x ≤ 100 * y)
  exact (div_le_div_iff_of_pos_right (by norm_num : (0 : K) < 100)).mpr
    (Int.cast_le.mpr h2)

/-- Modelled from the spec: the great-circle distance the external geo engine
computes, via the haversine formula on a sphere of radius 6371.0 km
(spec §4.1: Earth radius constant fixed at 6371.0 km), arguments in degrees. -/
noncomputable def haversineKm (lat1 lon1 lat2 lon2 : ℝ) : ℝ :=
  2 * 6371.0 * Real.arcsin (Real.sqrt
    (Real.sin ((lat2 - lat1) * (Real.pi / 360)) ^ 2 +
      Real.cos (lat1 * (Real.pi / 180)) * Real.cos (lat2 * (Real.pi / 180)) *
        Real.sin ((lon2 - lon1) * (Real.pi / 360)) ^ 2))

/-! ### Claim theorems -/

/-- C2: every search response's event list is ordered by the radius query's
sort: the underlying Geo Index hit list is sorted ascending by distance with
ties broken by identifier (leKey), the handler preserves that order exactly
(it is a filterMap over the hit list), and consequently the reported
(rounded) distances of the returned events are non-decreasing. -/
theorem C2_results_sorted_distance_then_id {K : Type} [LinearOrderedField K]
    [FloorRing K] (d : K → K → K → K → K) (s : RState K) (lat lon r : K) :
    List.Sorted leKey (georadius d s.geo lon lat r)
    ∧ (search_events d s lat lon r).events
        = (georadius d s.geo lon lat r).filterMap
            (fun p => (storeGet s.store p.1).map
              (fun ev => SearchResult.mk ev (round2 p.2)))
    ∧ List.Pairwise (fun a b : SearchResult K => a.distance ≤ b.distance)
        (search_events d s lat lon r).events := by
  have hsorted : List.Sorted leKey (georadius d s.geo lon lat r) := by
    unfold georadius
    exact List.sorted_insertionSort leKey _
  refine ⟨hsorted, rfl, ?_⟩
  show List.Pairwise _ ((georadius d s.geo lon lat r).filterMap _)
  refine List.Pairwise.filterMap _ (fun a a' hle b hb b' hb' => ?_) hsorted
  rcases Option.map_eq_some'.mp (Option.mem_def.mp hb) with ⟨ev, _, hbeq⟩
  rcases Option.map_eq_some'.mp (Option.mem_def.mp hb') with ⟨ev', _, hbeq'⟩
  have hd : a.2 ≤ a'.2 := by
    rcases hle with h | ⟨h, _⟩
    · exact le_of_lt h
    · exact le_of_eq h
  rw [← hbeq, ← hbeq']
  exact round2_mono hd

/-- C6: an identifier returned by the Geo Index whose hash is absent from the
Event Store is silently dropped from the result (src/app.py line 62's
`if details:` guard); the search itself is a total function, so the query
never fails on such a consistency violation. -/
theorem C6_missing_record_silently_dropped {K : Type} [LinearOrderedField K]
    [FloorRing K] (d : K → K → K → K → K) (s : RState K) (lat lon r : K)
    (i : String)
    (hwf : ∀ p ∈ s.store, (Prod.snd p).id = Prod.fst p)
    (hmiss : storeGet s.store i = none) :
    i ∉ (search_events d s lat lon r).events.map (fun e => e.details.id) := by
  intro hmem
  rcases (mem_search_ids d s lat lon r i).mp hmem with ⟨q, _, ev, hget, hid⟩
  have hqi : q.1 = i := (hwf _ (storeGet_eq_some_mem hget)) ▸ hid
  rw [hqi, hmiss] at hget
  exact Option.noConfusion hget

/-- C6 witness: a ghost identifier present only in the Geo Index never shows
up in the search output. -/
theorem C6_witness :
    "ghost" ∉ (search_events (K := ℚ) (fun _ _ _ _ => 0)
      ⟨[("ghost", 0, 0)], []⟩ 0 0 1).events.map (fun e => e.details.id) :=
  C6_missing_record_silently_dropped (fun _ _ _ _ => 0)
    ⟨[("ghost", 0, 0)], []⟩ 0 0 1 "ghost" (by simp) rfl

/-- C7: the distance attached to each returned event is the engine's
full-precision distance rounded to two decimals at formatting time only
(first conjunct, the handler's exact output shape), while inclusion in the
result is decided on the unrounded distance: every hit's exact distance is at
most the radius, and every indexed point whose exact distance is at most the
radius is a hit. -/
theorem C7_round_at_format_compare_full_precision {K : Type}
    [LinearOrderedField K] [FloorRing K] (d : K → K → K → K → K)
    (s : RState K) (lat lon r : K) :
    (search_events d s lat lon r).events
      = (georadius d s.geo lon lat r).filterMap
          (fun p => (storeGet s.store p.1).map
            (fun ev => SearchResult.mk ev (round2 p.2)))
    ∧ (∀ p ∈ georadius d s.geo lon lat r,
        (∃ q ∈ s.geo, p = (q.1, d lat lon q.2.2 q.2.1)) ∧ p.2 ≤ r)
    ∧ (∀ q ∈ s.geo, d lat lon q.2.2 q.2.1 ≤ r →
        (q.1, d lat lon q.2.2 q.2.1) ∈ georadius d s.geo lon lat r) := by
  refine ⟨rfl, ?_, ?_⟩
  · intro p hp
    exact (mem_georadius d s.geo lon lat r p).mp hp
  · intro q hq hle
    exact (mem_georadius d s.geo lon lat r _).mpr ⟨⟨q, hq, rfl⟩, hle⟩

/-- C8: after clear_events the event count is 0, no identifier is ever
returned by a subsequent search, and the reported clearedCount is the number
of event hashes that were deleted. -/
theorem C8_clear_empties_everything {K : Type} [LinearOrderedField K]
    [FloorRing K] (s : RState K) :
    get_event_count (clear_events s).1 = 0
    ∧ (∀ (d : K → K → K → K → K) (lat lon r : K) (i : String),
        i ∉ (search_events d (clear_events s).1 lat lon r).events.map
          (fun e => e.details.id))
    ∧ (clear_events s).2 = s.store.length := by
  refine ⟨rfl, ?_, rfl⟩
  intro d lat lon r i hmem
  rcases (mem_search_ids d _ lat lon r i).mp hmem with ⟨q, hq, _⟩
  rcases (mem_georadius d _ lon lat r q).mp hq with ⟨⟨p, hp, _⟩, _⟩
  simp [clear_events] at hp

/-- C10: the count field of the search response is the length of the events
list that survives the Event Store join (src/app.py line 70), and it can be
strictly smaller than the number of raw Geo Index hits (concrete state with a
ghost identifier: one raw hit, count 0). -/
theorem C10_count_is_surviving_events_length {K : Type} [LinearOrderedField K]
    [FloorRing K] (d : K → K → K → K → K) (s : RState K) (lat lon r : K) :
    (search_events d s lat lon r).count
        = (search_events d s lat lon r).events.length
    ∧ (search_events (K := ℚ) (fun _ _ _ _ => 0)
        ⟨[("ghost", 0, 0)], []⟩ 0 0 1).count = 0
    ∧ (georadius (K := ℚ) (fun _ _ _ _ => 0) [("ghost", 0, 0)] 0 0 1).length
        = 1 := by
  exact ⟨rfl, rfl, rfl⟩

/-- C3 counterexample: createEvent at latitude 200 (out of range) makes the
geo insert fail with InvalidCoordinate, yet the Event Store write performed
before it is NOT rolled back: the new identifier is still an Event Store key
afterwards (while absent from the Geo Index), contradicting the claim that
neither store contains it. -/
theorem C3_counterexample :
    (create_event (K := ℚ) ⟨[], []⟩ "abc" "X" 200 0 0).2
        = Except.error GeoErr.invalidCoordinate
    ∧ (create_event (K := ℚ) ⟨[], []⟩ "abc" "X" 200 0 0).1.store.map Prod.fst
        = ["abc"]
    ∧ (create_event (K := ℚ) ⟨[], []⟩ "abc" "X" 200 0 0).1.geo = [] := by
  exact ⟨rfl, rfl, rfl⟩

/-- C3 amended: createEvent with an out-of-range coordinate does fail with
InvalidCoordinate, but src/app.py lines 90-98 write the Event Store hash
first and never roll it back when GEOADD fails, so afterwards the identifier
is present in the Event Store (an orphaned attribute record) and absent from
the Geo Index. -/
theorem C3_amended_invalid_coordinate_orphans_store_record {K : Type}
    [LinearOrderedField K] (s : RState K) (genId name : String) (lat lon : K)
    (t : Nat)
    (hbad : ¬(-180 ≤ lon ∧ lon ≤ 180 ∧ -90 ≤ lat ∧ lat ≤ 90))
    (hfresh : genId ∉ s.geo.map Prod.fst) :
    (create_event s genId name lat lon t).2
        = Except.error GeoErr.invalidCoordinate
    ∧ genId ∈ (create_event s genId name lat lon t).1.store.map Prod.fst
    ∧ genId ∉ (create_event s genId name lat lon t).1.geo.map Prod.fst := by
  have hge := @geoadd_invalid K _ lon lat s.geo genId hbad
  unfold create_event
  rw [hge]
  exact ⟨rfl, mem_hset_keys _ _ _, hfresh⟩

/-- C3 witness: the amended behaviour at latitude 200 over a one-member
index. -/
theorem C3_witness :
    (create_event (K := ℚ) ⟨[("old", 0, 0)], []⟩ "abc" "X" 200 0 0).2
        = Except.error GeoErr.invalidCoordinate
    ∧ "abc" ∈ (create_event (K := ℚ) ⟨[("old", 0, 0)], []⟩
        "abc" "X" 200 0 0).1.store.map Prod.fst
    ∧ "abc" ∉ (create_event (K := ℚ) ⟨[("old", 0, 0)], []⟩
        "abc" "X" 200 0 0).1.geo.map Prod.fst :=
  C3_amended_invalid_coordinate_orphans_store_record
    ⟨[("old", 0, 0)], []⟩ "abc" "X" 200 0 0 (by decide) (by decide)

/-- The pre-existing record of the identifier collision scenario for C4. -/
def evOld : EventRecord ℚ := ⟨"x", "Old", none, 10, 10, 1⟩

/-- A state that already holds an event under identifier x, used to exercise
a generated-identifier collision in create_event. -/
def sColl : RState ℚ := ⟨[("x", 10, 10)], [("x", evOld)]⟩

/-- C4 counterexample: src/app.py line 78 takes str(uuid.uuid4())[:8] with no
check against existing Event Store keys and no retry; when the generated
identifier collides with an existing one, create_event succeeds and the old
event's record is silently overwritten (the store still has a single key x,
now bound to the new record instead of evOld). -/
theorem C4_counterexample :
    storeGet sColl.store "x" = some evOld
    ∧ (create_event sColl "x" "New" 10 10 5).2 = Except.ok "x"
    ∧ storeGet (create_event sColl "x" "New" 10 10 5).1.store "x"
        = some ⟨"x", "New", none, 10, 10, 5⟩
    ∧ (create_event sColl "x" "New" 10 10 5).1.store.map Prod.fst = ["x"] := by
  exact ⟨rfl, rfl, rfl, rfl⟩

/-- C4 amended: create_event uses the generated identifier unconditionally —
with any in-range coordinate it returns success and binds the identifier to
the freshly built record in the Event Store, even when the identifier already
named an existing event (whose record is thereby silently overwritten);
no collision detection or retry exists. -/
theorem C4_amended_collision_silently_overwrites {K : Type}
    [LinearOrderedField K] (s : RState K) (genId name : String) (lat lon : K)
    (t : Nat)
    (hv : -180 ≤ lon ∧ lon ≤ 180 ∧ -90 ≤ lat ∧ lat ≤ 90) :
    (create_event s genId name lat lon t).2 = Except.ok genId
    ∧ storeGet (create_event s genId name lat lon t).1.store genId
        = some ⟨genId, name, none, lat, lon, t⟩ := by
  unfold create_event geoadd
  rw [if_pos hv]
  exact ⟨rfl, storeGet_hset_self _ _ _⟩

/-- C4 witness: the amended behaviour on the concrete colliding state. -/
theorem C4_witness :
    (create_event sColl "x" "New" 10 10 5).2 = Except.ok "x"
    ∧ storeGet (create_event sColl "x" "New" 10 10 5).1.store "x"
        = some ⟨"x", "New", none, 10, 10, 5⟩ :=
  C4_amended_collision_silently_overwrites sColl "x" "New" 10 10 5 (by decide)

/-- Bulk-load induction: inserting entries with pairwise-distinct, in-range,
fresh identifiers succeeds, counts every entry, and grows the Geo Index by
exactly the number of entries. -/
theorem insert_events_fresh {K : Type} [LinearOrderedField K]
    (entries : List (GenEntry K)) (t : Nat) : ∀ s : RState K,
    (entries.map GenEntry.id).Nodup →
    (∀ e ∈ entries, -180 ≤ e.lon ∧ e.lon ≤ 180 ∧ -90 ≤ e.lat ∧ e.lat ≤ 90) →
    (∀ e ∈ entries, e.id ∉ s.geo.map Prod.fst) →
    ∃ s2, insert_events s entries t = .ok (s2, entries.length)
      ∧ s2.geo.length = s.geo.length + entries.length := by
  induction entries with
  | nil =>
    intro s _ _ _
    exact ⟨s, rfl, by simp⟩
  | cons e es ih =>
    intro s hnd hv hfresh
    have hv1 := hv e (List.mem_cons_self e es)
    have hf1 := hfresh e (List.mem_cons_self e es)
    have hadd := geoadd_fresh hv1 hf1
    have hnd' : ((e :: es).map GenEntry.id).Nodup := hnd
    rw [List.map_cons, List.nodup_cons] at hnd'
    have hrec := ih ⟨s.geo ++ [(e.id, e.lon, e.lat)],
        hset s.store e.id ⟨e.id, e.name, some e.city, e.lat, e.lon, t⟩⟩
      hnd'.2
      (fun e2 he2 => hv e2 (List.mem_cons_of_mem e he2))
      (fun e2 he2 => by
        simp only [List.map_append, List.mem_append]
        rintro (h2 | h2)
        · exact hfresh e2 (List.mem_cons_of_mem e he2) h2
        · simp only [List.map_cons, List.map_nil, List.mem_singleton] at h2
          exact hnd'.1 (h2 ▸ List.mem_map.mpr ⟨e2, he2, rfl⟩))
    rcases hrec with ⟨s2, hok, hlen⟩
    refine ⟨s2, ?_, ?_⟩
    · have hstep : insert_events s (e :: es) t
          = match insert_events ⟨s.geo ++ [(e.id, e.lon, e.lat)],
              hset s.store e.id ⟨e.id, e.name, some e.city, e.lat, e.lon, t⟩⟩
              es t with
            | .error err => .error err
            | .ok (s3, n) => .ok (s3, n + 1) := by
        conv_lhs => unfold insert_events
        rw [hadd]
      rw [hstep, hok]
      rfl
    · simp only [List.length_append, List.length_cons, List.length_nil] at hlen ⊢
      omega

/-- C9 counterexample: bulk-loading N = 2 synthetic entries whose generated
8-character identifiers collide (a possible uuid4-prefix outcome the code
neither detects nor retries, src/insert.py line 211) reports 2 insertions but
leaves count() = 1: the second entry silently merged into the first. -/
theorem C9_counterexample :
    (insert_events (K := ℚ) ⟨[], []⟩
      [⟨"aaaaaaaa", "Delhi Tech Meetup 2024", "Delhi", 28, 77⟩,
       ⟨"aaaaaaaa", "Delhi Food Festival 2025", "Delhi", 29, 77⟩] 0).map
        (fun p => (get_event_count p.1, p.2)) = Except.ok (1, 2) := by
  rfl

/-- C9 amended: bulk-loading N entries into the empty state yields
count() = N exactly when the N generated identifiers are pairwise distinct
(and the coordinates in range); the code itself never enforces distinctness,
and colliding identifiers merge. -/
theorem C9_amended_count_eq_N_iff_ids_distinct {K : Type}
    [LinearOrderedField K] (entries : List (GenEntry K)) (t : Nat)
    (hnd : (entries.map GenEntry.id).Nodup)
    (hv : ∀ e ∈ entries, -180 ≤ e.lon ∧ e.lon ≤ 180 ∧ -90 ≤ e.lat ∧ e.lat ≤ 90) :
    ∃ s2, insert_events (⟨[], []⟩ : RState K) entries t
        = .ok (s2, entries.length)
      ∧ get_event_count s2 = entries.length := by
  rcases insert_events_fresh entries t ⟨[], []⟩ hnd hv (by simp) with
    ⟨s2, hok, hlen⟩
  refine ⟨s2, hok, ?_⟩
  simpa [get_event_count, zcard] using hlen

/-- C9 witness: two entries with distinct identifiers are both counted. -/
theorem C9_witness :
    ∃ s2, insert_events (K := ℚ) ⟨[], []⟩
        [⟨"aaaaaaaa", "Delhi Tech Meetup 2024", "Delhi", 28, 77⟩,
         ⟨"bbbbbbbb", "Mumbai Conference 2025", "Mumbai", 19, 72⟩] 0
        = .ok (s2, 2)
      ∧ get_event_count s2 = 2 :=
  C9_amended_count_eq_N_iff_ids_distinct
    [⟨"aaaaaaaa", "Delhi Tech Meetup 2024", "Delhi", 28, 77⟩,
     ⟨"bbbbbbbb", "Mumbai Conference 2025", "Mumbai", 19, 72⟩] 0
    (by decide) (by decide)

theorem haversineKm_self (a b : ℝ) : haversineKm a b a b = 0 := by
  unfold haversineKm
  simp [sub_self]

theorem haversineKm_nonneg (a b c e : ℝ) : 0 ≤ haversineKm a b c e := by
  unfold haversineKm
  exact mul_nonneg (by norm_num)
    (Real.arcsin_nonneg.mpr (Real.sqrt_nonneg _))

/-- The Delhi-center record of spec §8's concrete scenario. -/
noncomputable def evDelhi : EventRecord ℝ :=
  ⟨"e1", "Delhi Center Event", none, 28.6139, 77.209, 0⟩

/-- A consistent one-event state with the event at the Delhi center. -/
noncomputable def stDelhi : RState ℝ :=
  ⟨[("e1", 77.209, 28.6139)], [("e1", evDelhi)]⟩

/-- C1: over any state whose Geo Index has no duplicate member and whose
Event Store records carry their own key as id field (as all records written
by create_event do), a search returns an inserted event's identifier iff the
haversine great-circle distance (Earth radius 6371.0 km) from the event's
stored point to the query center is at most the radius.  The model compares
exact real distances, which is the floating-point-tolerance-free reading of
the claim's boundary condition. -/
theorem C1_returned_iff_within_haversine_radius
    (s : RState ℝ) (i : String) (plon plat : ℝ) (ev : EventRecord ℝ)
    (qlat qlon r : ℝ)
    (hnd : (s.geo.map Prod.fst).Nodup)
    (hwf : ∀ p ∈ s.store, (Prod.snd p).id = Prod.fst p)
    (hg : (i, plon, plat) ∈ s.geo)
    (hs : storeGet s.store i = some ev) :
    i ∈ (search_events haversineKm s qlat qlon r).events.map
        (fun e => e.details.id)
      ↔ haversineKm qlat qlon plat plon ≤ r := by
  rw [mem_search_ids]
  constructor
  · rintro ⟨q, hq, ev2, hget2, hid⟩
    have hqi : q.1 = i := (hwf _ (storeGet_eq_some_mem hget2)) ▸ hid
    rcases (mem_georadius _ _ _ _ _ _).mp hq with ⟨⟨p, hp, hqe⟩, hle⟩
    have hp1 : p.1 = i := by rw [hqe] at hqi; exact hqi
    have hmem2 : (i, p.2) ∈ s.geo := by
      rw [← hp1]
      cases p
      exact hp
    have hpc : p.2 = (plon, plat) := geo_nodup_unique hnd hmem2 hg
    rw [hqe] at hle
    simp only at hle
    rw [hpc] at hle
    exact hle
  · intro hle
    refine ⟨(i, haversineKm qlat qlon plat plon), ?_, ev, hs,
      hwf _ (storeGet_eq_some_mem hs)⟩
    exact (mem_georadius _ _ _ _ _ _).mpr ⟨⟨(i, plon, plat), hg, rfl⟩, hle⟩

/-- C1 witness: the Delhi-center event is returned by a 1 km search centered
on its own coordinates (its haversine distance to the center is 0 ≤ 1). -/
theorem C1_witness :
    "e1" ∈ (search_events haversineKm stDelhi 28.6139 77.209 1).events.map
      (fun e => e.details.id) :=
  (C1_returned_iff_within_haversine_radius stDelhi "e1" 77.209 28.6139
      evDelhi 28.6139 77.209 1
      (by simp [stDelhi]) (by simp [stDelhi, evDelhi]) (by simp [stDelhi])
      rfl).mpr
    (by rw [haversineKm_self]; exact zero_le_one)

/-- C5 counterexample: the claim promises an empty result for every
radiusKm ≤ 0, but at radius exactly 0 an event whose point coincides with
the query center has haversine distance 0 ≤ 0 and is returned, so the
result list is not empty. -/
theorem C5_counterexample :
    ((0 : ℝ) ≤ 0)
    ∧ "e1" ∈ (search_events haversineKm stDelhi 28.6139 77.209 0).events.map
        (fun e => e.details.id)
    ∧ (search_events haversineKm stDelhi 28.6139 77.209 0).events ≠ [] := by
  have hmem : "e1" ∈ (search_events haversineKm stDelhi
      28.6139 77.209 0).events.map (fun e => e.details.id) := by
    rw [mem_search_ids]
    refine ⟨("e1", haversineKm 28.6139 77.209 28.6139 77.209), ?_, evDelhi,
      rfl, rfl⟩
    refine (mem_georadius _ _ _ _ _ _).mpr ⟨⟨("e1", 77.209, 28.6139), ?_, rfl⟩, ?_⟩
    · simp [stDelhi]
    · rw [haversineKm_self]
  refine ⟨le_refl 0, hmem, fun h => ?_⟩
  rw [h] at hmem
  exact absurd hmem (List.not_mem_nil _)

/-- C5 amended: a search with strictly negative radius returns the empty
event list without error (the model's search is a total function; every
haversine distance is nonnegative, so no candidate passes the filter); at
radius exactly 0, events at zero distance from the center are returned. -/
theorem C5_amended_negative_radius_yields_empty (s : RState ℝ) (lat lon r : ℝ)
    (hr : r < 0) :
    (search_events haversineKm s lat lon r).events = [] := by
  have hflt : (s.geo.map
      (fun p => (p.1, haversineKm lat lon p.2.2 p.2.1))).filter
        (fun q => decide (q.2 ≤ r)) = [] := by
    rw [List.filter_eq_nil_iff]
    intro q hq
    rcases List.mem_map.mp hq with ⟨p, _, hpe⟩
    rw [← hpe]
    simp only [decide_eq_true_eq]
    exact not_le.mpr (lt_of_lt_of_le hr (haversineKm_nonneg _ _ _ _))
  unfold search_events georadius
  rw [hflt]
  rfl

/-- C5 witness: a search with radius -1 over the one-event state returns no
events. -/
theorem C5_witness :
    (search_events haversineKm stDelhi 28.6139 77.209 (-1)).events = [] :=
  C5_amended_negative_radius_yields_empty stDelhi 28.6139 77.209 (-1)
    (by norm_num)

end MapEvents
